import Mathlib

/-
Verification of the yaak HTTP request executor (src-tauri/src/http_request.rs)
against its natural-language specification.

The Rust sources are shallowly embedded as pure Lean functions:
  - `serde_json::Value` becomes the inductive `Json`;
  - the helper accessors `get_bool`, `get_str`, `get_str_h` are translated directly;
  - external library calls (URL parsing, mime guessing, the network, the template
    renderer, the plugin manager, the database) are modelled as oracle fields of a
    `SendEnv` record so that every control-flow path of `send_http_request` is a
    path of the Lean model;
  - `.unwrap()` / `.expect()` panics are modelled as a distinct `panic` outcome;
  - wall-clock timers (`elapsed`, `elapsed_headers`) and timestamps are outside the
    embedding and omitted from the response record.
-/

set_option autoImplicit false

namespace Yaak

/-! ## Basic character and string utilities -/

/-- ASCII lowercase of a character (models the ASCII case folding performed by
the `http` crate on header names and by the `url` crate on hosts). -/
def asciiLower (c : Char) : Char :=
  if 65 ≤ c.toNat ∧ c.toNat ≤ 90 then Char.ofNat (c.toNat + 32) else c

/-- ASCII uppercase of a character (models `str::to_uppercase` on ASCII input,
as applied to the HTTP method string). -/
def asciiUpper (c : Char) : Char :=
  if 97 ≤ c.toNat ∧ c.toNat ≤ 122 then Char.ofNat (c.toNat - 32) else c

/-- ASCII lowercase of a string. -/
def asciiLowerStr (s : String) : String :=
  String.mk (s.toList.map asciiLower)

/-- ASCII uppercase of a string. -/
def asciiUpperStr (s : String) : String :=
  String.mk (s.toList.map asciiUpper)

/-- Model of Rust's `str::starts_with` (and of `String.startsWith`, defined on
the character list so that the kernel can evaluate it). -/
def strStartsWith (s p : String) : Bool :=
  p.toList.isPrefixOf s.toList

/-- Model of Rust's `str::ends_with`. -/
def strEndsWith (s p : String) : Bool :=
  p.toList.isSuffixOf s.toList

/-- Decimal digit test. -/
def isDigitChar (c : Char) : Bool :=
  48 ≤ c.toNat ∧ c.toNat ≤ 57

/-- Parses a non-empty all-digit character list as a decimal number. -/
def decNat? (cs : List Char) : Option Nat :=
  if cs ≠ [] ∧ cs.all isDigitChar then
    some (cs.foldl (fun a c => a * 10 + (c.toNat - 48)) 0)
  else none

/-- Whitespace as recognised by Rust's `char::is_whitespace` (Unicode
White_Space property). -/
def rustIsWhitespace (c : Char) : Bool :=
  c.toNat ∈ [9, 10, 11, 12, 13, 32, 133, 160, 5760,
    8192, 8193, 8194, 8195, 8196, 8197, 8198, 8199, 8200, 8201, 8202,
    8232, 8233, 8239, 8287, 12288]

/-- Model of Rust's `str::trim`. -/
def rustTrim (s : String) : String :=
  String.mk
    (((s.toList.dropWhile rustIsWhitespace).reverse.dropWhile rustIsWhitespace).reverse)

/-! ## JSON values (`serde_json::Value`) -/

/-- Model of `serde_json::Value`.  Numbers are collapsed to `Int`: none of the
embedded code inspects numeric payloads. -/
inductive Json where
  | null
  | bool (b : Bool)
  | num (n : Int)
  | str (s : String)
  | arr (elems : List Json)
  | obj (fields : List (String × Json))
deriving Repr

/-- Model of `Value::get` with a string key (object member lookup). -/
def Json.get : Json → String → Option Json
  | .obj fields, key => fields.lookup key
  | _, _ => none

/-- Model of `Value::as_bool`. -/
def Json.asBool : Json → Option Bool
  | .bool b => some b
  | _ => none

/-- Model of `Value::as_str`. -/
def Json.asStr : Json → Option String
  | .str s => some s
  | _ => none

/-- Model of `Value::as_array`. -/
def Json.asArr : Json → Option (List Json)
  | .arr elems => some elems
  | _ => none

/-- Translation of `get_bool` (http_request.rs, lines 688-693). -/
def get_bool (v : Json) (key : String) (fallback : Bool) : Bool :=
  match v.get key with
  | none => fallback
  | some w => (w.asBool).getD fallback

/-- Translation of `get_str` (http_request.rs, lines 695-700). -/
def get_str (v : Json) (key : String) : String :=
  match v.get key with
  | none => ""
  | some w => (w.asStr).getD ""

/-- Translation of `get_str_h` (http_request.rs, lines 702-707); the request
body `BTreeMap<String, Value>` is modelled as an association list. -/
def get_str_h (m : List (String × Json)) (key : String) : String :=
  match m.lookup key with
  | none => ""
  | some w => (w.asStr).getD ""

/-! ## JSON string encoding (`serde_json::to_string` on a `&str`) -/

/-- Lowercase hex digit for `n < 16`, as used by serde_json's escape table. -/
def hexDigitChar (n : Nat) : Char :=
  if n < 10 then Char.ofNat (48 + n) else Char.ofNat (87 + (n - 10))

/-- Escape of one character inside a JSON string literal, following
serde_json's `CharEscape` table: `"` and `\x5c` get a backslash escape, the
named control characters use their short escapes, all other control
characters below 0x20 use `\u00XX` with lowercase hex, and everything else is
emitted unchanged. -/
def jsonEscapeChar (c : Char) : String :=
  if c = Char.ofNat 34 then "\\\""
  else if c = Char.ofNat 92 then "\\\\"
  else if c = Char.ofNat 8 then "\\b"
  else if c = Char.ofNat 9 then "\\t"
  else if c = Char.ofNat 10 then "\\n"
  else if c = Char.ofNat 12 then "\\f"
  else if c = Char.ofNat 13 then "\\r"
  else if c.toNat < 32 then
    "\\u00" ++ String.mk [hexDigitChar (c.toNat / 16), hexDigitChar (c.toNat % 16)]
  else String.singleton c

/-- Model of `serde_json::to_string(s)` for a string value `s` (this
serialization is total, so the source's `unwrap_or_default` never takes its
default branch). -/
def jsonEncodeString (s : String) : String :=
  "\"" ++ String.join (s.toList.map jsonEscapeChar) ++ "\""

/-! ## GraphQL body (http_request.rs, lines 266-277) -/

/-- Translation of the `graphql` branch of the body builder: reads the
`query` and `variables` body fields, emits
`\x7b"query":<json-encoded query>\x7d` when the trimmed `variables` text is
empty, and `\x7b"query":<json-encoded query>,"variables":<raw variables>\x7d`
otherwise. -/
def buildGraphqlBody (request_body : List (String × Json)) : String :=
  let query := get_str_h request_body "query"
  let vars := get_str_h request_body "variables"
  if rustTrim vars = "" then
    "\x7b\"query\":" ++ jsonEncodeString query ++ "\x7d"
  else
    "\x7b\"query\":" ++ jsonEncodeString query ++ ",\"variables\":" ++ vars ++ "\x7d"

/-! ## URL host extraction (model of `reqwest::Url::from_str` + `Url::host`)

`ensure_proto` parses `"http://" ++ url_str` with the `url` crate and inspects
the host.  The model below covers the crate's behaviour for the special scheme
`http`: the authority runs to the first `/`, `\x5c`, `?` or `#`; userinfo up to
the last `@` is dropped; a bracketed IPv6 literal keeps its brackets in
`Host::to_string`; otherwise the host is cut at the first `:` and the port must
be empty or a decimal number below 65536; a host containing a forbidden host
code point (or an empty host) makes the parse fail.  ASCII letters are
lowercased.  IDNA/punycode mapping of non-ASCII hosts and percent-decoding are
outside the model: non-ASCII characters are kept verbatim and `%` is treated
as forbidden. -/

/-- Forbidden host code points of the URL standard (NUL, TAB, LF, CR, space,
`#`, `%`, `/`, `:`, `<`, `>`, `?`, `@`, `[`, `\x5c`, `]`, `^`, `|`). -/
def isForbiddenHostChar (c : Char) : Bool :=
  c.toNat ∈ [0, 9, 10, 13, 32, 35, 37, 47, 58, 60, 62, 63, 64, 91, 92, 93, 94, 124]

/-- Checks the text following the host: either nothing, or a `:` followed by an
empty port or a decimal port value below 65536. -/
def portPartOk : List Char → Bool
  | [] => true
  | c :: rest =>
    c = ':' && (rest.isEmpty || (match decNat? rest with
                                 | some n => decide (n < 65536)
                                 | none => false))

/-- Hexadecimal digit test (ASCII `0-9`, `a-f`, `A-F`). -/
def isHexDigitChar (c : Char) : Bool :=
  (48 ≤ c.toNat ∧ c.toNat ≤ 57) ∨ (97 ≤ c.toNat ∧ c.toNat ≤ 102) ∨
    (65 ≤ c.toNat ∧ c.toNat ≤ 70)

/-- Host of `"http://" ++ s` as parsed by the `url` crate, `none` when the
parse fails (empty host, forbidden character, bad port, unterminated IPv6
bracket). -/
def urlHost (s : String) : Option String :=
  let authority := s.toList.takeWhile
    (fun c => ¬ (c = '/' ∨ c = Char.ofNat 92 ∨ c = '?' ∨ c = '#'))
  let hostport := (authority.reverse.takeWhile (fun c => c ≠ '@')).reverse
  if hostport.head? = some '[' then
    let inner := (hostport.drop 1).takeWhile (fun c => c ≠ ']')
    match (hostport.drop 1).dropWhile (fun c => c ≠ ']') with
    | [] => none
    | _ :: afterBracket =>
      if inner ≠ [] ∧ inner.all (fun c => isHexDigitChar c ∨ c = ':' ∨ c = '.')
          ∧ portPartOk afterBracket then
        some (String.mk ('[' :: (inner ++ [']'])))
      else none
  else
    let hostChars := hostport.takeWhile (fun c => c ≠ ':')
    let portPart := hostport.dropWhile (fun c => c ≠ ':')
    if hostChars ≠ [] ∧ hostChars.all (fun c => ¬ isForbiddenHostChar c)
        ∧ portPartOk portPart then
      some (String.mk (hostChars.map asciiLower))
    else none

/-- Translation of `ensure_proto` (http_request.rs, lines 665-686). -/
def ensure_proto (url_str : String) : String :=
  if strStartsWith url_str "http://" ∨ strStartsWith url_str "https://" then
    url_str
  else
    match urlHost url_str with
    | some h =>
      if strEndsWith h ".app" ∨ strEndsWith h ".dev" ∨ strEndsWith h ".page" then
        "https://" ++ url_str
      else
        "http://" ++ url_str
    | none => "http://" ++ url_str

/-! ## Header names, values and the header map (`http::HeaderMap`) -/

/-- Valid bytes of an HTTP header name per the `http` crate: ASCII letters and
digits plus `! # $ % & ' * + - . ^ _ \x60 | ~`. -/
def isHeaderNameChar (c : Char) : Bool :=
  (97 ≤ c.toNat ∧ c.toNat ≤ 122) ∨ (65 ≤ c.toNat ∧ c.toNat ≤ 90) ∨
  (48 ≤ c.toNat ∧ c.toNat ≤ 57) ∨
  c.toNat ∈ [33, 35, 36, 37, 38, 39, 42, 43, 45, 46, 94, 95, 96, 124, 126]

/-- Model of `HeaderName::from_str`: fails on an empty string or an invalid
character, and lowercases ASCII letters. -/
def headerNameFromStr (s : String) : Option String :=
  if s ≠ "" ∧ s.toList.all isHeaderNameChar then some (asciiLowerStr s) else none

/-- Valid bytes of an HTTP header value per `HeaderValue::from_str`: TAB or
any byte that is at least 32 and not 127 (all bytes of a multi-byte UTF-8
character are at least 128, so non-ASCII characters pass). -/
def isHeaderValueChar (c : Char) : Bool :=
  c.toNat = 9 ∨ (32 ≤ c.toNat ∧ c.toNat ≠ 127)

/-- Model of `HeaderValue::from_str`. -/
def headerValueFromStr (s : String) : Option String :=
  if s.toList.all isHeaderValueChar then some s else none

/-- The header map, modelled as an association list whose keys are lowercased
header names.  `HeaderMap` order is irrelevant to the claims, which speak about
the name-to-value mapping. -/
abbrev HeaderMap := List (String × String)

/-- Model of `HeaderMap::insert`: replaces every value stored under the key
(the maps built here never hold duplicates), keeping lookup semantics. -/
def hmInsert (m : HeaderMap) (k v : String) : HeaderMap :=
  (m.filter (fun kv => kv.1 ≠ k)) ++ [(k, v)]

/-- Model of `HeaderMap::remove` (the argument is matched case-insensitively,
so it is lowercased before the keys are compared). -/
def hmRemove (m : HeaderMap) (k : String) : HeaderMap :=
  m.filter (fun kv => kv.1 ≠ asciiLowerStr k)

/-- Lookup in the header map. -/
def hmGet (m : HeaderMap) (k : String) : Option String :=
  m.lookup (asciiLowerStr k)

/-- The two default headers inserted first (http_request.rs, lines 218-220):
`USER_AGENT` and `ACCEPT` are the lowercase constant names of the `http`
crate. -/
def defaultHeaderMap : HeaderMap :=
  hmInsert (hmInsert [] "user-agent" "yaak") "accept" "*/*"

/-- One entry of `HttpRequest::headers` (name, value, enabled). -/
structure HttpHeaderEntry where
  name : String
  value : String
  enabled : Bool
deriving Repr, DecidableEq

/-- Translation of the request-header loop (http_request.rs, lines 237-262):
entries whose name and value are both empty are skipped, disabled entries are
skipped, a name or value rejected by the `http` crate is logged and skipped,
and every surviving entry is inserted, overwriting any same-named header. -/
def buildRequestHeaders (entries : List HttpHeaderEntry) (m : HeaderMap) :
    HeaderMap :=
  match entries with
  | [] => m
  | h :: rest =>
    if h.name = "" ∧ h.value = "" then buildRequestHeaders rest m
    else if ¬ h.enabled then buildRequestHeaders rest m
    else
      match headerNameFromStr h.name with
      | none => buildRequestHeaders rest m
      | some n =>
        match headerValueFromStr h.value with
        | none => buildRequestHeaders rest m
        | some v => buildRequestHeaders rest (hmInsert m n v)

/-- States claim C8 as written: the outgoing header map is the defaults
followed by exactly the enabled, non-blank request headers, folded in list
order with later same-named entries overwriting earlier ones. -/
def C8AsStated : Prop :=
  ∀ entries : List HttpHeaderEntry,
    buildRequestHeaders entries defaultHeaderMap =
      (entries.filter (fun h => h.enabled && decide (h.name ≠ ""))).foldl
        (fun acc h => hmInsert acc (asciiLowerStr h.name) h.value)
        defaultHeaderMap

/-- Translation of the authentication-result merge loop (http_request.rs,
lines 458-464): each returned header is parsed with
`HeaderName::from_str(..).unwrap()` and `HeaderValue::from_str(..).unwrap()`
and inserted into the outbound request's header map.  The `.unwrap()` panics
on a malformed name or value; `none` models that panic. -/
def mergeAuthHeaders (m : HeaderMap) :
    List (String × String) → Option HeaderMap
  | [] => some m
  | (n, v) :: rest =>
    match headerNameFromStr n with
    | none => none
    | some hn =>
      match headerValueFromStr v with
      | none => none
      | some hv => mergeAuthHeaders (hmInsert m hn hv) rest

/-- The claim C6 as stated by the spec: headers returned by the auth
collaborator are merged one by one, and a malformed header name or value is
skipped without aborting the send and without affecting the other headers. -/
def mergeAuthHeadersAsSpecified (m : HeaderMap) :
    List (String × String) → HeaderMap
  | [] => m
  | (n, v) :: rest =>
    match headerNameFromStr n with
    | none => mergeAuthHeadersAsSpecified m rest
    | some hn =>
      match headerValueFromStr v with
      | none => mergeAuthHeadersAsSpecified m rest
      | some hv => mergeAuthHeadersAsSpecified (hmInsert m hn hv) rest

/-- States claim C6 as written: for every starting header map and every list
of headers returned by the auth collaborator, the merge never aborts the send
and behaves like the per-header-skipping merge. -/
def C6AsStated : Prop :=
  ∀ (m : HeaderMap) (hs : List (String × String)),
    mergeAuthHeaders m hs = some (mergeAuthHeadersAsSpecified m hs)

/-! ## Urlencoded form body (http_request.rs, lines 281-299) -/

/-- Translation of the urlencoded form loop: each array element keeps its
(name, value) pair unless it is disabled (`enabled` read with fallback `true`)
or has an empty name. -/
def buildFormParams : List Json → List (String × String)
  | [] => []
  | p :: rest =>
    let enabled := get_bool p "enabled" true
    let name := get_str p "name"
    if enabled = false ∨ name = "" then buildFormParams rest
    else (name, get_str p "value") :: buildFormParams rest

/-! ## Multipart form body (http_request.rs, lines 320-402) -/

/-- Content of one multipart part: an inline text value or the bytes read from
a file. -/
inductive PartContent where
  | text (value : String)
  | bytes (content : List Nat)
deriving Repr, DecidableEq

/-- One built multipart part: name, content, the mime type applied through
`Part::mime_str` (`none` when the code never calls it), and the filename
attached through `Part::file_name`. -/
structure PartModel where
  name : String
  content : PartContent
  mime : Option String
  filename : Option String
deriving Repr, DecidableEq

/-- Splits a character list on a separator (kernel-evaluable replacement for
`String.splitOn` with a one-character separator). -/
def splitChars (sep : Char) : List Char → List (List Char)
  | [] => [[]]
  | c :: rest =>
    let r := splitChars sep rest
    if c = sep then [] :: r
    else
      match r with
      | [] => [[c]]
      | g :: gs => (c :: g) :: gs

/-- Model of `PathBuf::file_name().unwrap_or_default().to_string_lossy()` for
Unix-style paths: the last `/`-separated component that is not `.` , with `..`
and component-less paths collapsing to the empty string (the `unwrap_or_default`
branch). -/
def pathFileName (p : String) : String :=
  let comps := (splitChars '/' p.toList).map String.mk
  match (comps.filter (fun c => c ≠ "" ∧ c ≠ ".")).getLast? with
  | none => ""
  | some c => if c = ".." then "" else c

/-- Keep-filter of the multipart loop: an entry survives when it is enabled
(fallback `true`) and its name is non-empty. -/
def multipartKeeps (p : Json) : Bool :=
  get_bool p "enabled" true && decide (get_str p "name" ≠ "")

/-- Translation of the multipart form loop.  External effects are oracles:
`fs` models `tokio::fs::read` (file bytes or an error message), `parseMime`
models `Part::mime_str`, that is `Mime::from_str` (`none` = invalid mime), and
`mimeGuess` models `mime_guess::from_path(..).first()` applied to the essence
string.  An `Except.error` is a failure the caller turns into `response_err`.
For each kept entry: the part content is the inline value or the file bytes;
an explicitly set non-empty `contentType` is applied through the mime parser;
otherwise, when a file is attached, the guessed mime (default
`application/octet-stream`) is applied; a file-built part carries the file
base name. -/
def buildMultipartParts (fs : String → Except String (List Nat))
    (parseMime : String → Option String) (mimeGuess : String → Option String) :
    List Json → Except String (List PartModel)
  | [] => .ok []
  | p :: rest =>
    let enabled := get_bool p "enabled" true
    let name := get_str p "name"
    if enabled = false ∨ name = "" then
      buildMultipartParts fs parseMime mimeGuess rest
    else
      let file_path := get_str p "file"
      let value := get_str p "value"
      match (if file_path = "" then Except.ok (PartContent.text value)
             else (fs file_path).map PartContent.bytes) with
      | .error e => .error e
      | .ok content =>
        let content_type := get_str p "contentType"
        let mimeApplied : Except String (Option String) :=
          if content_type ≠ "" then
            match parseMime content_type with
            | some mm => .ok (some mm)
            | none => .error ("Invalid mime for multi-part entry " ++ content_type)
          else if file_path ≠ "" then
            match parseMime ((mimeGuess file_path).getD "application/octet-stream") with
            | some mm => .ok (some mm)
            | none => .error ("Invalid mime for multi-part entry " ++ file_path)
          else .ok none
        match mimeApplied with
        | .error e => .error e
        | .ok mm =>
          let part : PartModel :=
            { name := name, content := content, mime := mm,
              filename := if file_path ≠ "" then some (pathFileName file_path)
                          else none }
          match buildMultipartParts fs parseMime mimeGuess rest with
          | .error e => .error e
          | .ok parts => .ok (part :: parts)

/-- The part each kept entry is expected to produce (used to characterize a
successful multipart build). -/
def expectedPart (fs : String → Except String (List Nat))
    (parseMime : String → Option String) (mimeGuess : String → Option String)
    (p : Json) : PartModel :=
  let file_path := get_str p "file"
  let content_type := get_str p "contentType"
  { name := get_str p "name"
    content := if file_path = "" then PartContent.text (get_str p "value")
               else PartContent.bytes ((fs file_path).toOption.getD [])
    mime := if content_type ≠ "" then parseMime content_type
            else if file_path ≠ "" then
              parseMime ((mimeGuess file_path).getD "application/octet-stream")
            else none
    filename := if file_path ≠ "" then some (pathFileName file_path) else none }

/-! ## Body dispatch (http_request.rs, lines 264-409) -/

/-- Model of `BTreeMap::contains_key`. -/
def containsKey (m : List (String × Json)) (k : String) : Bool :=
  (m.lookup k).isSome

/-- The transport-ready payload attached to the request builder. -/
inductive BuiltBody where
  | noBody
  | raw (s : String)
  | form (params : List (String × String))
  | fileBytes (content : List Nat)
  | multipart (parts : List PartModel)
deriving Repr, DecidableEq

/-- Result of the body-building phase: a payload together with the (possibly
updated) header map, or an error that the caller turns into `response_err`. -/
inductive BodyResult where
  | built (b : BuiltBody) (headers : HeaderMap)
  | failed (msg : String)
deriving Repr, DecidableEq

/-- Translation of the body dispatch: `graphql` builds the JSON text,
urlencoded collects the enabled non-blank form pairs, `binary` reads the
referenced file (a read failure is a recoverable body error), multipart builds
the parts and removes any user-set `Content-Type` header (reqwest regenerates
it with the boundary), any other kind with a `text` field uses that text, and
anything else proceeds with no body.  In the `binary` branch the
`ok_or(..)?` on the `filePath` lookup is unreachable because the branch is
guarded by `contains_key`, so the lookup is modelled with a default. -/
def buildBody (fs : String → Except String (List Nat))
    (parseMime : String → Option String) (mimeGuess : String → Option String)
    (body_type : Option String) (request_body : List (String × Json))
    (headers : HeaderMap) : BodyResult :=
  match body_type with
  | none => .built .noBody headers
  | some bt =>
    if bt = "graphql" then
      .built (.raw (buildGraphqlBody request_body)) headers
    else if bt = "application/x-www-form-urlencoded" ∧
        containsKey request_body "form" = true then
      let form := (request_body.lookup "form").getD Json.null
      .built (.form (match form.asArr with
                     | none => []
                     | some a => buildFormParams a)) headers
    else if bt = "binary" ∧ containsKey request_body "filePath" = true then
      let fp := (((request_body.lookup "filePath").getD Json.null).asStr).getD ""
      match fs fp with
      | .ok f => .built (.fileBytes f) headers
      | .error e => .failed e
    else if bt = "multipart/form-data" ∧ containsKey request_body "form" = true then
      let form := (request_body.lookup "form").getD Json.null
      match (match form.asArr with
             | none => Except.ok []
             | some fd => buildMultipartParts fs parseMime mimeGuess fd) with
      | .ok parts => .built (.multipart parts) (hmRemove headers "Content-Type")
      | .error e => .failed e
    else if containsKey request_body "text" = true then
      .built (.raw (get_str_h request_body "text")) headers
    else
      .built .noBody headers

/-! ## Cookies and the cookie-store seeding (http_request.rs, lines 150-171) -/

/-- Mirror of `CookieDomain` (yaak-models/src/models.rs, lines 254-261). -/
inductive CookieDomain where
  | hostOnly (s : String)
  | domainSuffix (s : String)
  | notPresent
  | empty
deriving Repr, DecidableEq

/-- Mirror of `CookieExpires` (yaak-models/src/models.rs, lines 263-268). -/
inductive CookieExpires where
  | atUtc (s : String)
  | sessionEnd
deriving Repr, DecidableEq

/-- Mirror of `Cookie` (yaak-models/src/models.rs, lines 270-277): the raw
cookie text plus parsed attributes, serde-compatible with the session's
`cookie_store::Cookie`. -/
structure Cookie where
  raw_cookie : String
  domain : CookieDomain
  expires : CookieExpires
  path : String × Bool
deriving Repr, DecidableEq

/-- Translation of the per-cookie conversion loop: every stored cookie is
serialized to JSON and re-deserialized as the session's cookie type, a
deserialization that re-parses `raw_cookie` and can fail; `roundTrip` models
it.  The code calls `.expect("Failed to deserialize cookie")` on the result,
so a failed round-trip panics — modelled by `none`. -/
def seedCookieStore {σ : Type} (roundTrip : Cookie → Option σ) :
    List Cookie → Option (List σ)
  | [] => some []
  | c :: rest =>
    match roundTrip c with
    | none => none
    | some sc => (seedCookieStore roundTrip rest).map (fun l => sc :: l)

/-- Model of `CookieStore::from_cookies`: propagates the first `Err` item and
otherwise collects the cookies into a store. -/
def from_cookies {σ : Type} : List (Except String σ) → Except String (List σ)
  | [] => .ok []
  | .error e :: _ => .error e
  | .ok c :: rest => (from_cookies rest).map (fun l => c :: l)

/-- Translation of the whole cookie-store build (lines 150-171): the converted
cookies are wrapped in `Ok` one by one and handed to
`CookieStore::from_cookies(.., true)?`.  The outer `none` is the `.expect`
panic; `some (.error e)` would be the `?` propagating a hard error out of
`from_cookies`. -/
def buildCookieStore {σ : Type} (roundTrip : Cookie → Option σ)
    (cookies : List Cookie) : Option (Except String (List σ)) :=
  match seedCookieStore roundTrip cookies with
  | none => none
  | some scs => some (from_cookies (scs.map Except.ok))

/-- States claim C7 as written: a stored cookie that fails the round-trip
makes the transport build return a hard `Error` to the caller. -/
def C7AsStated : Prop :=
  ∀ (roundTrip : Cookie → Option Unit) (cookies : List Cookie),
    (∃ c ∈ cookies, roundTrip c = none) →
    ∃ e, buildCookieStore roundTrip cookies = some (Except.error e)

/-- A concrete stored cookie used to exercise the cookie paths. -/
def corruptCookie : Cookie :=
  { raw_cookie := "not a cookie", domain := .notPresent,
    expires := .sessionEnd, path := ("/", true) }

/-! ## The response record (yaak-models/src/models.rs, lines 791-831)

The wall-clock fields `elapsed`, `elapsed_headers`, `created_at` and
`updated_at` are outside the embedding (real time) and omitted; no claim
mentions them. -/

/-- Mirror of `HttpResponseState` (models.rs, lines 794-798); serde's default
is `Initialized` (lines 800-804). -/
inductive HttpResponseState where
  | initialized
  | connected
  | closed
deriving Repr, DecidableEq

/-- Mirror of `HttpResponse` (models.rs, lines 806-831), response and request
headers flattened to (name, value) pairs. -/
structure HttpResponse where
  id : String
  workspace_id : String
  request_id : String
  body_path : Option String
  content_length : Option Int
  error : Option String
  headers : List (String × String)
  request_headers : List (String × String)
  remote_addr : Option String
  status : Int
  status_reason : Option String
  state : HttpResponseState
  url : String
  version : Option String
deriving Repr, DecidableEq

/-- A freshly created response record, as serde's `#[serde(default)]` builds
it: empty fields and state `Initialized`. -/
def initialResponse : HttpResponse :=
  { id := "rs_1", workspace_id := "w1", request_id := "rq_1",
    body_path := none, content_length := none, error := none,
    headers := [], request_headers := [], remote_addr := none,
    status := 0, status_reason := none, state := .initialized,
    url := "", version := none }

/-- Modelled from the spec: the helper `crate::response_err` is declared
outside the given sources (only its call sites are in src/).  Following §7 —
"a failed send always yields a response record with a human-readable error
string and a `Closed` state" — it copies the record, sets the error message
and the `Closed` state, persists it (`update_response` is an idempotent upsert
returning the stored record) and returns it. -/
def response_err (r : HttpResponse) (msg : String) : HttpResponse :=
  { r with error := some msg, state := .closed }

/-! ## Body streaming (http_request.rs, lines 544-600) -/

/-- One result of `v.chunk().await`: a data chunk (`Ok(Some(bytes))`) or a
stream error (`Err(e)`); the end of the list models `Ok(None)`. -/
inductive ChunkResult where
  | chunk (bytes : List Nat)
  | errC (msg : String)
deriving Repr, DecidableEq

/-- Outcome of the streaming loop: finished (with the bytes written and the
stream error, if one ended the loop) or stopped by the cancellation check. -/
inductive StreamOutcome where
  | finished (written : Nat) (streamError : Option String)
  | cancelledMid
deriving Repr, DecidableEq

/-- Translation of the chunk loop (lines 554-586): each iteration awaits the
next chunk, then returns without finalizing when `*cancelled_rx.borrow()` is
set (`cancels` lists that flag per iteration), appends and counts a data
chunk, breaks at end of stream, and breaks on a chunk error after calling
`response_err` (whose result is discarded and whose record is not the shared
one, so the error text never reaches the returned record). -/
def streamLoop : List ChunkResult → List Bool → Nat → StreamOutcome
  | [], cs, written =>
    if cs.headD false then .cancelledMid else .finished written none
  | .chunk b :: rest, cs, written =>
    if cs.headD false then .cancelledMid
    else streamLoop rest cs.tail (written + b.length)
  | .errC e :: _, cs, written =>
    if cs.headD false then .cancelledMid else .finished written (some e)

/-- Sum of the chunk sizes the loop consumes before stopping (cut at the first
stream error). -/
def bytesUntilStop : List ChunkResult → Nat
  | [] => 0
  | .chunk b :: rest => b.length + bytesUntilStop rest
  | .errC _ :: _ => 0

/-- Model of Rust's `as i32` cast from an unsigned integer: keep the low 32
bits and reinterpret as two's complement. -/
def toI32 (n : Nat) : Int :=
  if n % 2 ^ 32 < 2 ^ 31 then ((n % 2 ^ 32 : Nat) : Int)
  else ((n % 2 ^ 32 : Nat) : Int) - 2 ^ 32

/-- What the transport reports on a successful connect: status, canonical
reason, response headers, declared content length, the body chunk sequence,
final URL, remote address and negotiated version. -/
structure NetResp where
  status : Nat
  reason : Option String
  respHeaders : List (String × String)
  contentLength : Option Nat
  chunks : List ChunkResult
  urlStr : String
  remoteAddr : Option String
  version : Option String

/-- Outcome of the spawned response task: the finalized record sent through
`done_tx`, or an early return caused by the mid-stream cancellation check (in
which case `done_tx` never fires and the outer race finishes the record). -/
inductive ConnectedOutcome where
  | done (r : HttpResponse)
  | cancelledMid

/-- Translation of the connected phase of the spawned task (lines 492-600):
record the headers-available snapshot (state `Connected`, persisted), stream
the body, then set the final content length — the declared length if the
transport gave one, both cast with `as i32`, else the observed byte count —
and close the record.  A stream error leaves no error text on the shared
record (see `streamLoop`). -/
def runConnectedPhase (v : NetResp) (response : HttpResponse)
    (body_path : String) (request_headers : List (String × String))
    (cancels : List Bool) : ConnectedOutcome :=
  let r1 : HttpResponse :=
    { response with
      body_path := some body_path
      status := (v.status : Int)
      status_reason := v.reason
      headers := v.respHeaders
      request_headers := request_headers
      url := v.urlStr
      remote_addr := v.remoteAddr
      version := v.version
      state := .connected }
  match streamLoop v.chunks cancels 0 with
  | .cancelledMid => .cancelledMid
  | .finished written _ =>
    .done { r1 with
      content_length := some (match v.contentLength with
                              | some l => toI32 l
                              | none => toI32 written)
      state := .closed }

/-! ## The executor (`send_http_request`, http_request.rs, lines 39-663) -/

/-- Valid bytes of an HTTP method token per the `http` crate — the same token
set as header names, with case preserved. -/
def methodFromStr (s : String) : Option String :=
  if s ≠ "" ∧ s.toList.all isHeaderNameChar then some s else none

/-- One entry of `HttpRequest::url_parameters`. -/
structure UrlParameter where
  name : String
  value : String
  enabled : Bool

/-- Translation of the query-parameter loop (lines 182-188): keep enabled
entries with a non-empty name, in order. -/
def buildQueryParams : List UrlParameter → List (String × String)
  | [] => []
  | p :: rest =>
    if p.enabled = false ∨ p.name = "" then buildQueryParams rest
    else (p.name, p.value) :: buildQueryParams rest

/-- The rendered request returned by the external template renderer. -/
structure RenderedRequest where
  id : String
  method : String
  url : String
  headers : List HttpHeaderEntry
  url_parameters : List UrlParameter
  body_type : Option String
  body : List (String × Json)
  authentication_type : Option String

/-- Normalization applied to the rendered URL (lines 87-92): `ensure_proto`,
then a redundant second guard prepending `http://` when the result still lacks
a scheme. -/
def normalizedUrl (u : String) : String :=
  let u1 := ensure_proto u
  if ¬ (strStartsWith u1 "http://" = true ∨ strStartsWith u1 "https://" = true)
  then "http://" ++ u1 else u1

/-- Every external effect of one send, as oracle outcomes: the database
lookups, the renderer, the cookie round trip, the client and request builders,
the two URL parsers, the filesystem, mime handling, the auth plugin call, the
network, and the cancellation signal's observed values. -/
structure SendEnv where
  workspaceResult : Except String Unit
  baseEnvResult : Except String Unit
  renderResult : Except String RenderedRequest
  cookieJar : Option (List Cookie)
  cookieRoundTrip : Cookie → Option Cookie
  clientBuildResult : Except String Unit
  uriParse : String → Except String String
  urlParse : String → Except String Unit
  fs : String → Except String (List Nat)
  parseMime : String → Option String
  mimeGuess : String → Option String
  requestBuildResult : Except String Unit
  authResult : String → Except String (List (String × String))
  cancelledBeforeHeaders : Bool
  networkResult : Except String NetResp
  cancelSchedule : List Bool
  dbGetResponse : Option HttpResponse
  freshId : String

/-- What one call of `send_http_request` gives the caller: `Ok(record)`, a
bare `Err`, or a panic (`unwrap`/`expect` firing). -/
inductive SendOutcome where
  | ok (r : HttpResponse)
  | err (msg : String)
  | panic (msg : String)
deriving Repr, DecidableEq

/-- Translation of `send_http_request`, following the source order of effects
and early returns.  The two `tokio::select!` races are determinized: the
pre-headers race is decided by `cancelledBeforeHeaders`, and the final race is
decided by whether the spawned task's chunk loop observes the cancellation
flag (`cancelSchedule`) — if it does, the task returns without sending on
`done_tx` and the outer cancellation arm re-reads the record from storage
(`dbGetResponse`) and closes it.  On a network error the task calls
`response_err` for its persistence side effect but discards its result and
sends the untouched shared record through `done_tx` (lines 631-643). -/
def send_http_request (env : SendEnv) (og_response : HttpResponse) :
    SendOutcome :=
  match env.workspaceResult with
  | .error e => .err e
  | .ok _ =>
  match env.baseEnvResult with
  | .error e => .err e
  | .ok _ =>
  let response := og_response
  match env.renderResult with
  | .error e => .ok (response_err response e)
  | .ok request =>
  let url_string := normalizedUrl request.url
  match (match env.cookieJar with
         | none => some (Except.ok ())
         | some cookies =>
           match buildCookieStore env.cookieRoundTrip cookies with
           | none => none
           | some r => some (r.map (fun _ => ()))) with
  | none => .panic "Failed to deserialize cookie"
  | some (.error e) => .err e
  | some (.ok _) =>
  match env.clientBuildResult with
  | .error e => .err e
  | .ok _ =>
  match env.uriParse url_string with
  | .error e =>
    .ok (response_err response
      ("Failed to parse URL \"" ++ url_string ++ "\": " ++ e))
  | .ok uriStr =>
  match env.urlParse uriStr with
  | .error e =>
    .ok (response_err response
      ("Failed to parse URL \"" ++ url_string ++ "\": " ++ e))
  | .ok _ =>
  match methodFromStr (asciiUpperStr request.method) with
  | none => .err ("invalid method: " ++ asciiUpperStr request.method)
  | some _ =>
  match buildBody env.fs env.parseMime env.mimeGuess request.body_type
      request.body (buildRequestHeaders request.headers defaultHeaderMap) with
  | .failed e => .ok (response_err response e)
  | .built _ sentHeaders =>
  match env.requestBuildResult with
  | .error e => .ok (response_err response e)
  | .ok _ =>
  match (match request.authentication_type with
         | none => some (Except.ok sentHeaders)
         | some auth_name =>
           match env.authResult auth_name with
           | .error e => some (.error e)
           | .ok set_headers =>
             match mergeAuthHeaders sentHeaders set_headers with
             | none => none
             | some merged => some (.ok merged)) with
  | none => .panic "auth header unwrap failed"
  | some (.error e) => .ok (response_err response e)
  | some (.ok _) =>
  if env.cancelledBeforeHeaders then
    .ok (response_err response "Request was cancelled")
  else
    match env.networkResult with
    | .error _ => .ok response
    | .ok v =>
      let body_path := if og_response.id = "" then "responses/" ++ env.freshId
                       else "responses/" ++ og_response.id
      match runConnectedPhase v response body_path sentHeaders
          env.cancelSchedule with
      | .done r => .ok r
      | .cancelledMid =>
        match env.dbGetResponse with
        | some r => .ok { r with state := .closed }
        | none => .ok (response_err response "Ephemeral request was cancelled")

/-- States claim C1 as written: for a fresh (`Initialized`) starting record,
every record the send returns to the caller is `Closed`. -/
def C1AsStated : Prop :=
  ∀ (env : SendEnv) (og : HttpResponse), og.state = .initialized →
    ∀ r, send_http_request env og = .ok r → r.state = .closed

/-- States the error short-circuit half of claim C2 as written: a bare `Err`
reaches the caller only when a failure happens before the response object
exists, that is in the workspace or base-environment lookups. -/
def C2AsStated : Prop :=
  ∀ (env : SendEnv) (og : HttpResponse) (e : String),
    send_http_request env og = .err e →
    (∃ e2, env.workspaceResult = .error e2) ∨
    (∃ e2, env.baseEnvResult = .error e2)

/-- An environment in which everything up to the network call succeeds with
the simplest possible request, and then `client.execute` fails. -/
def envNetErr : SendEnv :=
  { workspaceResult := .ok ()
    baseEnvResult := .ok ()
    renderResult := .ok
      { id := "rq_1", method := "GET", url := "http://x.test", headers := [],
        url_parameters := [], body_type := none, body := [],
        authentication_type := none }
    cookieJar := none
    cookieRoundTrip := some
    clientBuildResult := .ok ()
    uriParse := fun s => .ok s
    urlParse := fun _ => .ok ()
    fs := fun _ => .error "unused"
    parseMime := some
    mimeGuess := fun _ => none
    requestBuildResult := .ok ()
    authResult := fun _ => .error "unused"
    cancelledBeforeHeaders := false
    networkResult := .error "connection refused"
    cancelSchedule := []
    dbGetResponse := none
    freshId := "gen_1" }

/-- The same environment with a healthy network but an HTTP method that
`Method::from_str` rejects (it contains a space). -/
def envBadMethod : SendEnv :=
  { envNetErr with
    renderResult := .ok
      { id := "rq_1", method := "GE T", url := "http://x.test", headers := [],
        url_parameters := [], body_type := none, body := [],
        authentication_type := none } }

/-- The same environment with a failing template render. -/
def envRenderFail : SendEnv :=
  { envNetErr with renderResult := .error "render broke" }

/-- A sample successful transport response with two body chunks and no
declared content length. -/
def sampleNet : NetResp :=
  { status := 200, reason := some "OK", respHeaders := [("server", "t")],
    contentLength := none, chunks := [.chunk [10, 20], .chunk [30]],
    urlStr := "http://x.test/", remoteAddr := some "93.184.216.34:80",
    version := some "HTTP/1.1" }

/-! ## Restated claims and their proofs -/

/-- C3: for every input URL string, `ensure_proto` returns the input unchanged
when it already starts with `http://` or `https://`; otherwise, when the
parsed host ends in `.app`, `.dev` or `.page` it prepends `https://`, and in
all other cases (including unparseable hosts) it prepends `http://`.  In
particular `example.dev` normalizes to `https://example.dev`, `example.com`
normalizes to `http://example.com`, and `https://x.test` stays unchanged. -/
theorem C3_ensure_proto_normalization :
    (∀ s, strStartsWith s "http://" = true ∨ strStartsWith s "https://" = true →
      ensure_proto s = s) ∧
    (∀ s h,
      ¬ (strStartsWith s "http://" = true ∨ strStartsWith s "https://" = true) →
      urlHost s = some h →
      ensure_proto s =
        (if strEndsWith h ".app" = true ∨ strEndsWith h ".dev" = true ∨
            strEndsWith h ".page" = true
         then "https://" ++ s else "http://" ++ s)) ∧
    (∀ s,
      ¬ (strStartsWith s "http://" = true ∨ strStartsWith s "https://" = true) →
      urlHost s = none → ensure_proto s = "http://" ++ s) ∧
    ensure_proto "example.dev" = "https://example.dev" ∧
    ensure_proto "example.com" = "http://example.com" ∧
    ensure_proto "https://x.test" = "https://x.test" := by
  refine ⟨?_, ?_, ?_, by decide, by decide, by decide⟩
  · intro s hs
    simp [ensure_proto, hs]
  · intro s h hns hh
    simp [ensure_proto, hns, hh]
  · intro s hns hh
    simp [ensure_proto, hns, hh]

/-- Witness for C3 at concrete inputs. -/
theorem C3_ensure_proto_normalization_witness :
    ensure_proto "https://x.y" = "https://x.y" ∧
    ensure_proto "host.page/a" = "https://host.page/a" :=
  ⟨C3_ensure_proto_normalization.1 "https://x.y" (Or.inr (by decide)),
   (C3_ensure_proto_normalization.2.1 "host.page/a" "host.page"
      (by decide) (by decide)).trans (by decide)⟩

/-- C4: for every request body with kind `graphql`, the built body is exactly
the JSON object `\x7b"query": <query JSON-string-encoded>\x7d` when the
`variables` field is blank (trims to empty), and
`\x7b"query": <json string>, "variables": <raw variables text>\x7d` when it is
non-blank; a blank `variables` field never contributes a `variables` key. -/
theorem C4_graphql_body (body : List (String × Json)) :
    (rustTrim (get_str_h body "variables") = "" →
      buildGraphqlBody body =
        "\x7b\"query\":" ++ jsonEncodeString (get_str_h body "query") ++ "\x7d") ∧
    (rustTrim (get_str_h body "variables") ≠ "" →
      buildGraphqlBody body =
        "\x7b\"query\":" ++ jsonEncodeString (get_str_h body "query") ++
          ",\"variables\":" ++ get_str_h body "variables" ++ "\x7d") := by
  constructor
  · intro hblank
    simp [buildGraphqlBody, hblank]
  · intro hfull
    simp [buildGraphqlBody, hfull]

/-- Witness for C4: a whitespace-only `variables` field is dropped, and a raw
JSON `variables` field is embedded without re-encoding. -/
theorem C4_graphql_body_witness :
    buildGraphqlBody [("query", Json.str "q"), ("variables", Json.str " ")] =
      "\x7b\"query\":" ++ jsonEncodeString "q" ++ "\x7d" ∧
    buildGraphqlBody
        [("query", Json.str "a\"b"), ("variables", Json.str "\x7b\"x\":1\x7d")] =
      "\x7b\"query\":" ++ jsonEncodeString "a\"b" ++ ",\"variables\":" ++
        "\x7b\"x\":1\x7d" ++ "\x7d" :=
  ⟨(C4_graphql_body [("query", Json.str "q"), ("variables", Json.str " ")]).1
      (by decide),
   (C4_graphql_body
        [("query", Json.str "a\"b"), ("variables", Json.str "\x7b\"x\":1\x7d")]).2
      (by decide)⟩

/-- A parseable header name is non-empty and parses to its ASCII lowercase
form. -/
theorem headerNameFromStr_isSome {s : String}
    (h : (headerNameFromStr s).isSome = true) :
    s ≠ "" ∧ headerNameFromStr s = some (asciiLowerStr s) := by
  unfold headerNameFromStr at h ⊢
  split at h
  · next hc => exact ⟨hc.1, by rw [if_pos hc]⟩
  · simp at h

/-- A parseable header value parses to itself. -/
theorem headerValueFromStr_isSome {s : String}
    (h : (headerValueFromStr s).isSome = true) :
    headerValueFromStr s = some s := by
  unfold headerValueFromStr at h ⊢
  split at h
  · next hc => rw [if_pos hc]
  · simp at h

/-- Header-loop characterization over an arbitrary starting map, with no side
condition: the loop folds exactly the enabled entries whose name and value the
`http` crate accepts, in order, inserting lowercased names (a fully blank
entry is skipped by the first guard and also has an unparseable empty name, so
the two drop conditions coincide on it). -/
theorem buildRequestHeaders_filter_eq (entries : List HttpHeaderEntry)
    (m : HeaderMap) :
    buildRequestHeaders entries m =
      (entries.filter (fun h => h.enabled &&
          (headerNameFromStr h.name).isSome &&
          (headerValueFromStr h.value).isSome)).foldl
        (fun acc h => hmInsert acc (asciiLowerStr h.name) h.value) m := by
  induction entries generalizing m with
  | nil => simp [buildRequestHeaders]
  | cons h rest ih =>
    by_cases hblank : h.name = "" ∧ h.value = ""
    · have hname0 : headerNameFromStr "" = none := by
        simp [headerNameFromStr]
      simp [buildRequestHeaders, hblank, List.filter_cons, hname0, ih]
    · by_cases hen : h.enabled = true
      · cases hn : headerNameFromStr h.name with
        | none =>
          have hkeep : (h.enabled &&
              (headerNameFromStr h.name).isSome &&
              (headerValueFromStr h.value).isSome) = false := by
            simp [hn]
          simp [buildRequestHeaders, hblank, hen, hn, List.filter_cons,
            hkeep, ih]
        | some n =>
          cases hv : headerValueFromStr h.value with
          | none =>
            have hkeep : (h.enabled &&
                (headerNameFromStr h.name).isSome &&
                (headerValueFromStr h.value).isSome) = false := by
              simp [hv]
            simp [buildRequestHeaders, hblank, hen, hn, hv, List.filter_cons,
              hkeep, ih]
          | some v =>
            have hkeep : (h.enabled &&
                (headerNameFromStr h.name).isSome &&
                (headerValueFromStr h.value).isSome) = true := by
              simp [hen, hn, hv]
            have hnsome : (headerNameFromStr h.name).isSome = true := by
              rw [hn]
              rfl
            have hvsome : (headerValueFromStr h.value).isSome = true := by
              rw [hv]
              rfl
            have hneq := (headerNameFromStr_isSome hnsome).2
            have hveq := headerValueFromStr_isSome hvsome
            rw [hn] at hneq
            rw [hv] at hveq
            injection hneq with hn2
            injection hveq with hv2
            simp [buildRequestHeaders, hblank, hen, hn, hv, List.filter_cons,
              hkeep, ih, hn2, hv2]
      · have hen2 : h.enabled = false := by
          cases hb : h.enabled
          · rfl
          · exact absurd hb hen
        have hkeep : (h.enabled &&
            (headerNameFromStr h.name).isSome &&
            (headerValueFromStr h.value).isSome) = false := by
          simp [hen2]
        simp [buildRequestHeaders, hblank, hen2, List.filter_cons, hkeep, ih]

/-- C8 fails as stated: an enabled, non-blank header whose name the `http`
crate rejects (here `bad name`, containing a space) is silently dropped by the
loop (lines 246-259), while the claim counts it among "exactly the enabled,
non-blank request headers" that reach the map. -/
theorem C8_counterexample : ¬ C8AsStated := by
  intro h
  have h2 := h [⟨"bad name", "x", true⟩]
  exact absurd h2 (by decide)

/-- C8 (amended): the outgoing header map starts from the defaults
`User-Agent: yaak` and `Accept: */*` and then folds, in list order, exactly
the enabled request headers whose name and value are well-formed (hence
non-blank), a later entry overwriting any earlier same-named one, defaults
included; disabled, blank, or malformed-name/value entries are silently
dropped and contribute nothing. -/
theorem C8_amended_header_map (entries : List HttpHeaderEntry) :
    buildRequestHeaders entries defaultHeaderMap =
      (entries.filter (fun h => h.enabled &&
          (headerNameFromStr h.name).isSome &&
          (headerValueFromStr h.value).isSome)).foldl
        (fun acc h => hmInsert acc (asciiLowerStr h.name) h.value)
        defaultHeaderMap :=
  buildRequestHeaders_filter_eq entries defaultHeaderMap

/-- C6 as stated is false: the merge loop calls `.unwrap()` on the parsed
header name and value, so a malformed header name returned by the auth
collaborator panics (aborting the send) instead of being skipped; witnessed by
the single returned header `bad name: x`. -/
theorem C6_counterexample : ¬ C6AsStated := by
  intro h
  have h2 := h [] [("bad name", "x")]
  exact (by decide :
    mergeAuthHeaders [] [("bad name", "x")] ≠
      some (mergeAuthHeadersAsSpecified [] [("bad name", "x")])) h2

/-- C6 (amended): every header returned by the auth collaborator is merged
into the outbound request in order, overwriting any same-named header, as long
as every returned name and value is well-formed; a malformed header name or
value panics (the `.unwrap()` aborts the send) rather than being skipped. -/
theorem C6_amended_auth_merge (m : HeaderMap) (hs : List (String × String)) :
    mergeAuthHeaders m hs =
      if hs.all (fun nv => (headerNameFromStr nv.1).isSome &&
                           (headerValueFromStr nv.2).isSome) then
        some (hs.foldl (fun acc nv => hmInsert acc (asciiLowerStr nv.1) nv.2) m)
      else none := by
  induction hs generalizing m with
  | nil => simp [mergeAuthHeaders]
  | cons nv rest ih =>
    by_cases hn : (headerNameFromStr nv.1).isSome = true
    · obtain ⟨-, hneq⟩ := headerNameFromStr_isSome hn
      by_cases hv : (headerValueFromStr nv.2).isSome = true
      · have hveq := headerValueFromStr_isSome hv
        rw [show mergeAuthHeaders m (nv :: rest) =
              mergeAuthHeaders (hmInsert m (asciiLowerStr nv.1) nv.2) rest by
            simp [mergeAuthHeaders, hneq, hveq], ih]
        have hcond : ((nv :: rest).all fun p =>
              (headerNameFromStr p.1).isSome && (headerValueFromStr p.2).isSome) =
            (rest.all fun p =>
              (headerNameFromStr p.1).isSome && (headerValueFromStr p.2).isSome) := by
          simp [List.all_cons, hn, hv]
        rw [hcond, List.foldl_cons]
      · have hv' : headerValueFromStr nv.2 = none := by
          cases hx : headerValueFromStr nv.2
          · rfl
          · exact absurd (by simp [hx]) hv
        simp [mergeAuthHeaders, hneq, hv', List.all_cons, hv]
    · have hn' : headerNameFromStr nv.1 = none := by
        cases hx : headerNameFromStr nv.1
        · rfl
        · exact absurd (by simp [hx]) hn
      simp [mergeAuthHeaders, hn', List.all_cons, hn]

/-- A successful multipart build produces exactly one part per kept (enabled,
non-blank-named) entry, in order, each of the expected shape. -/
theorem buildMultipartParts_ok
    (fs : String → Except String (List Nat))
    (pm mg : String → Option String)
    (form : List Json) (parts : List PartModel)
    (h : buildMultipartParts fs pm mg form = .ok parts) :
    parts = (form.filter multipartKeeps).map (expectedPart fs pm mg) := by
  induction form generalizing parts with
  | nil =>
    simp only [buildMultipartParts] at h
    cases h
    simp
  | cons p rest ih =>
    simp only [buildMultipartParts] at h
    by_cases hskip : get_bool p "enabled" true = false ∨ get_str p "name" = ""
    · rw [if_pos hskip] at h
      have hk : multipartKeeps p = false := by
        rcases hskip with h1 | h1 <;> simp [multipartKeeps, h1]
      simp only [List.filter_cons, hk, Bool.false_eq_true, if_false]
      exact ih _ h
    · rw [if_neg hskip] at h
      push_neg at hskip
      have hk : multipartKeeps p = true := by
        have hen : get_bool p "enabled" true = true := by
          cases hgb : get_bool p "enabled" true
          · exact absurd hgb hskip.1
          · rfl
        simp [multipartKeeps, hen, hskip.2]
      by_cases hfp : get_str p "file" = ""
      · rw [if_pos hfp] at h
        by_cases hct : get_str p "contentType" ≠ ""
        · rw [if_pos hct] at h
          cases hmm : pm (get_str p "contentType") with
          | none => rw [hmm] at h; cases h
          | some mm =>
            rw [hmm] at h
            cases hrec : buildMultipartParts fs pm mg rest with
            | error e => rw [hrec] at h; cases h
            | ok ps =>
              rw [hrec] at h
              cases h
              simp only [List.filter_cons, hk, if_true, List.map_cons]
              rw [ih _ hrec]
              simp [expectedPart, hfp, hct, hmm]
        · rw [if_neg hct] at h
          rw [if_neg (by simpa using hfp)] at h
          cases hrec : buildMultipartParts fs pm mg rest with
          | error e => rw [hrec] at h; cases h
          | ok ps =>
            rw [hrec] at h
            cases h
            simp only [List.filter_cons, hk, if_true, List.map_cons]
            rw [ih _ hrec]
            simp [expectedPart, hfp, hct]
      · cases hfs : fs (get_str p "file") with
        | error e =>
          rw [if_neg hfp, hfs] at h
          cases h
        | ok bytes =>
          rw [if_neg hfp, hfs] at h
          simp only [Except.map] at h
          by_cases hct : get_str p "contentType" ≠ ""
          · rw [if_pos hct] at h
            cases hmm : pm (get_str p "contentType") with
            | none => rw [hmm] at h; cases h
            | some mm =>
              rw [hmm] at h
              cases hrec : buildMultipartParts fs pm mg rest with
              | error e => rw [hrec] at h; cases h
              | ok ps =>
                rw [hrec] at h
                cases h
                simp only [List.filter_cons, hk, if_true, List.map_cons]
                rw [ih _ hrec]
                simp [expectedPart, hfp, hct, hmm, hfs, Except.toOption]
          · rw [if_neg hct] at h
            rw [if_pos (by simpa using hfp)] at h
            cases hmm : pm ((mg (get_str p "file")).getD "application/octet-stream") with
            | none => rw [hmm] at h; cases h
            | some mm =>
              rw [hmm] at h
              cases hrec : buildMultipartParts fs pm mg rest with
              | error e => rw [hrec] at h; cases h
              | ok ps =>
                rw [hrec] at h
                cases h
                simp only [List.filter_cons, hk, if_true, List.map_cons]
                rw [ih _ hrec]
                simp [expectedPart, hfp, hct, hmm, hfs, Except.toOption]

/-- C5: for every multipart/form-data request with a form array whose parts
build successfully (all referenced files readable and, modelled by a mime
parser that accepts strings verbatim, all mime strings valid): disabled or
blank-named entries produce no part; every kept entry produces one part whose
mime type is the explicitly set `contentType` when non-empty, else — when a
file is attached — the type guessed from the file with
`application/octet-stream` as fallback; a file-built part carries the file's
base name as its filename; and any user-set `Content-Type` header is removed
from the outgoing header map. -/
theorem C5_multipart_build
    (fs : String → Except String (List Nat)) (pm mg : String → Option String)
    (request_body : List (String × Json)) (headers : HeaderMap)
    (formJson : Json) (form : List Json) (parts : List PartModel)
    (hform : request_body.lookup "form" = some formJson)
    (harr : formJson.asArr = some form)
    (hok : buildMultipartParts fs pm mg form = .ok parts)
    (hpm : ∀ s, pm s = some s) :
    buildBody fs pm mg (some "multipart/form-data") request_body headers =
      .built (.multipart parts) (hmRemove headers "Content-Type") ∧
    parts = (form.filter multipartKeeps).map (fun p =>
      { name := get_str p "name"
        content := if get_str p "file" = "" then
                     PartContent.text (get_str p "value")
                   else
                     PartContent.bytes ((fs (get_str p "file")).toOption.getD [])
        mime := if get_str p "contentType" ≠ "" then
                  some (get_str p "contentType")
                else if get_str p "file" ≠ "" then
                  some ((mg (get_str p "file")).getD "application/octet-stream")
                else none
        filename := if get_str p "file" ≠ "" then
                      some (pathFileName (get_str p "file"))
                    else none }) := by
  constructor
  · simp [buildBody, containsKey, hform, harr, hok]
  · rw [buildMultipartParts_ok fs pm mg form parts hok]
    exact List.map_congr_left (fun p _ => by simp [expectedPart, hpm])

/-- Witness for C5: one file part with a guessed (fallback) mime type and base
filename, one inline part with an explicit mime type; a disabled entry and a
blank-named entry vanish, and the user-set `Content-Type` header is removed. -/
theorem C5_multipart_build_witness :
    buildBody (fun _ => .ok [1, 2, 3]) some (fun _ => none)
        (some "multipart/form-data")
        [("form", Json.arr
          [Json.obj [("name", Json.str "f"), ("file", Json.str "/tmp/a.bin")],
           Json.obj [("name", Json.str "c"), ("value", Json.str "v"),
                     ("contentType", Json.str "text/csv")],
           Json.obj [("name", Json.str "d"), ("enabled", Json.bool false)],
           Json.obj [("name", Json.str "")]])]
        [("content-type", "text/plain")] =
      .built (.multipart
        [{ name := "f", content := .bytes [1, 2, 3],
           mime := some "application/octet-stream", filename := some "a.bin" },
         { name := "c", content := .text "v",
           mime := some "text/csv", filename := none }]) [] :=
  ((C5_multipart_build (fun _ => .ok [1, 2, 3]) some (fun _ => none)
      [("form", Json.arr
        [Json.obj [("name", Json.str "f"), ("file", Json.str "/tmp/a.bin")],
         Json.obj [("name", Json.str "c"), ("value", Json.str "v"),
                   ("contentType", Json.str "text/csv")],
         Json.obj [("name", Json.str "d"), ("enabled", Json.bool false)],
         Json.obj [("name", Json.str "")]])]
      [("content-type", "text/plain")]
      (Json.arr
        [Json.obj [("name", Json.str "f"), ("file", Json.str "/tmp/a.bin")],
         Json.obj [("name", Json.str "c"), ("value", Json.str "v"),
                   ("contentType", Json.str "text/csv")],
         Json.obj [("name", Json.str "d"), ("enabled", Json.bool false)],
         Json.obj [("name", Json.str "")]])
      [Json.obj [("name", Json.str "f"), ("file", Json.str "/tmp/a.bin")],
       Json.obj [("name", Json.str "c"), ("value", Json.str "v"),
                 ("contentType", Json.str "text/csv")],
       Json.obj [("name", Json.str "d"), ("enabled", Json.bool false)],
       Json.obj [("name", Json.str "")]]
      [{ name := "f", content := .bytes [1, 2, 3],
         mime := some "application/octet-stream", filename := some "a.bin" },
       { name := "c", content := .text "v",
         mime := some "text/csv", filename := none }]
      rfl rfl rfl (fun s => rfl)).1).trans (by decide)

/-- An absent or non-boolean `enabled` field makes `get_bool` return its
fallback. -/
theorem get_bool_default (p : Json) (key : String) (fallback : Bool)
    (h : p.get key = none ∨ ∃ w, p.get key = some w ∧ w.asBool = none) :
    get_bool p key fallback = fallback := by
  rcases h with h | ⟨w, hw, hb⟩
  · simp [get_bool, h]
  · simp [get_bool, hw, hb]

/-- An enabled entry with a non-empty name contributes its pair to the
urlencoded form parameters. -/
theorem buildFormParams_mem (form : List Json) (p : Json)
    (hp : p ∈ form) (hen : get_bool p "enabled" true = true)
    (hname : get_str p "name" ≠ "") :
    (get_str p "name", get_str p "value") ∈ buildFormParams form := by
  induction form with
  | nil => cases hp
  | cons q rest ih =>
    rcases List.mem_cons.mp hp with rfl | hmem
    · have hkeep : ¬ (get_bool p "enabled" true = false ∨ get_str p "name" = "") := by
        simp [hen, hname]
      simp [buildFormParams, hkeep]
    · by_cases hskip : get_bool q "enabled" true = false ∨ get_str q "name" = ""
      · simpa [buildFormParams, hskip] using ih hmem
      · simp only [buildFormParams, if_neg hskip, List.mem_cons]
        exact Or.inr (ih hmem)

/-- An enabled entry with a non-empty name contributes a part (of its name) to
a successful multipart build. -/
theorem buildMultipartParts_name_mem
    (fs : String → Except String (List Nat)) (pm mg : String → Option String)
    (form : List Json) (parts : List PartModel) (p : Json)
    (hok : buildMultipartParts fs pm mg form = .ok parts)
    (hp : p ∈ form) (hen : get_bool p "enabled" true = true)
    (hname : get_str p "name" ≠ "") :
    ∃ part ∈ parts, part.name = get_str p "name" := by
  rw [buildMultipartParts_ok fs pm mg form parts hok]
  have hk : multipartKeeps p = true := by
    simp [multipartKeeps, hen, hname]
  refine ⟨expectedPart fs pm mg p,
    List.mem_map_of_mem _ (List.mem_filter.mpr ⟨hp, hk⟩), ?_⟩
  simp [expectedPart]

/-- C10: for every form entry of a urlencoded or multipart body whose
`enabled` field is absent or not a boolean, the entry is treated as enabled
(the flag defaults to `true`) and, having a non-empty name, it is included in
the built body. -/
theorem C10_enabled_defaults_true (p : Json) (form : List Json)
    (habsent : p.get "enabled" = none ∨
      ∃ w, p.get "enabled" = some w ∧ w.asBool = none)
    (hname : get_str p "name" ≠ "") (hp : p ∈ form) :
    get_bool p "enabled" true = true ∧
    (get_str p "name", get_str p "value") ∈ buildFormParams form ∧
    (∀ (fs : String → Except String (List Nat))
       (pm mg : String → Option String) (parts : List PartModel),
       buildMultipartParts fs pm mg form = .ok parts →
       ∃ part ∈ parts, part.name = get_str p "name") := by
  have hen : get_bool p "enabled" true = true := get_bool_default p "enabled" true habsent
  exact ⟨hen, buildFormParams_mem form p hp hen hname,
    fun fs pm mg parts hok =>
      buildMultipartParts_name_mem fs pm mg form parts p hok hp hen hname⟩

/-- Witness for C10: an entry whose `enabled` field is the string `"yes"`
(not a boolean) is treated as enabled and lands in both body kinds. -/
theorem C10_enabled_defaults_true_witness :
    get_bool (Json.obj [("name", Json.str "n"), ("enabled", Json.str "yes")])
        "enabled" true = true ∧
    ("n", "") ∈ buildFormParams
        [Json.obj [("name", Json.str "n"), ("enabled", Json.str "yes")]] ∧
    (∃ part ∈ [({ name := "n", content := PartContent.text "",
                  mime := none, filename := none } : PartModel)],
       part.name = "n") :=
  have h := C10_enabled_defaults_true
    (Json.obj [("name", Json.str "n"), ("enabled", Json.str "yes")])
    [Json.obj [("name", Json.str "n"), ("enabled", Json.str "yes")]]
    (Or.inr ⟨Json.str "yes", rfl, rfl⟩) (by decide) (List.mem_singleton.mpr rfl)
  ⟨h.1, h.2.1,
    h.2.2 (fun _ => .ok []) some (fun _ => none)
      [{ name := "n", content := PartContent.text "",
         mime := none, filename := none }] rfl⟩

/-- C1 (code bug): the claim fails on the code at the network-error path.
When `client.execute` returns an error the spawned task calls `response_err`
(which persists a `Closed`, error-carrying copy) but discards its result, and
then sends the untouched shared record through `done_tx`; the caller therefore
receives the original record, still `Initialized` and with no error — not a
`Closed` record as the claim states for every failure. -/
theorem C1_network_error_leaves_initialized :
    send_http_request envNetErr initialResponse = .ok initialResponse ∧
    initialResponse.state = HttpResponseState.initialized ∧
    ¬ C1AsStated := by
  refine ⟨rfl, rfl, ?_⟩
  intro h
  have h2 := h envNetErr initialResponse rfl initialResponse rfl
  exact absurd h2 (by decide)

/-- C2 fails as stated: a method string rejected by `Method::from_str` (here
`"GE T"`, containing a space) is turned into a bare `Err` by the
`map_err(..)?` at line 214-215, even though the response object already
exists, where the claim promises an `Ok` with an error-carrying record. -/
theorem C2_counterexample : ¬ C2AsStated := by
  intro h
  have h2 := h envBadMethod initialResponse ("invalid method: GE T") rfl
  rcases h2 with ⟨e2, he2⟩ | ⟨e2, he2⟩ <;> simp [envBadMethod, envNetErr] at he2

/-- C2 (amended): after the response object exists, render failures, URL
parse failures (either parser), body build/read failures, request-build
failures and auth-call failures each return `Ok` with the error-carrying
`Closed` record produced by `response_err`; a bare `Err` is returned for the
workspace and base-environment lookups (before the response object exists)
and also for transport-build failures and method-parse failures; a cookie
round-trip failure panics. -/
theorem C2_amended_failure_routing (env : SendEnv) (og : HttpResponse) :
    (∀ e, env.workspaceResult = .error e →
      send_http_request env og = .err e) ∧
    (∀ e, env.workspaceResult = .ok () → env.baseEnvResult = .error e →
      send_http_request env og = .err e) ∧
    (∀ e, env.workspaceResult = .ok () → env.baseEnvResult = .ok () →
      env.renderResult = .error e →
      send_http_request env og = .ok (response_err og e)) ∧
    (∀ req cookies, env.workspaceResult = .ok () → env.baseEnvResult = .ok () →
      env.renderResult = .ok req → env.cookieJar = some cookies →
      seedCookieStore env.cookieRoundTrip cookies = none →
      send_http_request env og = .panic "Failed to deserialize cookie") ∧
    (∀ req e, env.workspaceResult = .ok () → env.baseEnvResult = .ok () →
      env.renderResult = .ok req → env.cookieJar = none →
      env.clientBuildResult = .error e →
      send_http_request env og = .err e) ∧
    (∀ req e, env.workspaceResult = .ok () → env.baseEnvResult = .ok () →
      env.renderResult = .ok req → env.cookieJar = none →
      env.clientBuildResult = .ok () →
      (∀ s, env.uriParse s = .error e) →
      send_http_request env og = .ok (response_err og
        ("Failed to parse URL \"" ++ normalizedUrl req.url ++ "\": " ++ e))) ∧
    (∀ req e, env.workspaceResult = .ok () → env.baseEnvResult = .ok () →
      env.renderResult = .ok req → env.cookieJar = none →
      env.clientBuildResult = .ok () →
      (∀ s, env.uriParse s = .ok s) →
      (∀ s, env.urlParse s = .error e) →
      send_http_request env og = .ok (response_err og
        ("Failed to parse URL \"" ++ normalizedUrl req.url ++ "\": " ++ e))) ∧
    (∀ req, env.workspaceResult = .ok () → env.baseEnvResult = .ok () →
      env.renderResult = .ok req → env.cookieJar = none →
      env.clientBuildResult = .ok () →
      (∀ s, env.uriParse s = .ok s) → (∀ s, env.urlParse s = .ok ()) →
      methodFromStr (asciiUpperStr req.method) = none →
      send_http_request env og =
        .err ("invalid method: " ++ asciiUpperStr req.method)) ∧
    (∀ req m e, env.workspaceResult = .ok () → env.baseEnvResult = .ok () →
      env.renderResult = .ok req → env.cookieJar = none →
      env.clientBuildResult = .ok () →
      (∀ s, env.uriParse s = .ok s) → (∀ s, env.urlParse s = .ok ()) →
      methodFromStr (asciiUpperStr req.method) = some m →
      buildBody env.fs env.parseMime env.mimeGuess req.body_type req.body
        (buildRequestHeaders req.headers defaultHeaderMap) = .failed e →
      send_http_request env og = .ok (response_err og e)) ∧
    (∀ req m b hdrs e, env.workspaceResult = .ok () →
      env.baseEnvResult = .ok () →
      env.renderResult = .ok req → env.cookieJar = none →
      env.clientBuildResult = .ok () →
      (∀ s, env.uriParse s = .ok s) → (∀ s, env.urlParse s = .ok ()) →
      methodFromStr (asciiUpperStr req.method) = some m →
      buildBody env.fs env.parseMime env.mimeGuess req.body_type req.body
        (buildRequestHeaders req.headers defaultHeaderMap) = .built b hdrs →
      env.requestBuildResult = .error e →
      send_http_request env og = .ok (response_err og e)) ∧
    (∀ req m b hdrs an e, env.workspaceResult = .ok () →
      env.baseEnvResult = .ok () →
      env.renderResult = .ok req → env.cookieJar = none →
      env.clientBuildResult = .ok () →
      (∀ s, env.uriParse s = .ok s) → (∀ s, env.urlParse s = .ok ()) →
      methodFromStr (asciiUpperStr req.method) = some m →
      buildBody env.fs env.parseMime env.mimeGuess req.body_type req.body
        (buildRequestHeaders req.headers defaultHeaderMap) = .built b hdrs →
      env.requestBuildResult = .ok () →
      req.authentication_type = some an →
      env.authResult an = .error e →
      send_http_request env og = .ok (response_err og e)) := by
  refine ⟨?_, ?_, ?_, ?_, ?_, ?_, ?_, ?_, ?_, ?_, ?_⟩
  · intro e h1
    simp [send_http_request, h1]
  · intro e h1 h2
    simp [send_http_request, h1, h2]
  · intro e h1 h2 h3
    simp [send_http_request, h1, h2, h3]
  · intro req cookies h1 h2 h3 h4 h5
    simp [send_http_request, h1, h2, h3, h4, buildCookieStore, h5]
  · intro req e h1 h2 h3 h4 h5
    simp [send_http_request, h1, h2, h3, h4, h5]
  · intro req e h1 h2 h3 h4 h5 h6
    simp [send_http_request, h1, h2, h3, h4, h5, h6]
  · intro req e h1 h2 h3 h4 h5 h6 h7
    simp [send_http_request, h1, h2, h3, h4, h5, h6, h7]
  · intro req h1 h2 h3 h4 h5 h6 h7 h8
    simp [send_http_request, h1, h2, h3, h4, h5, h6, h7, h8]
  · intro req m e h1 h2 h3 h4 h5 h6 h7 h8 h9
    simp [send_http_request, h1, h2, h3, h4, h5, h6, h7, h8, h9]
  · intro req m b hdrs e h1 h2 h3 h4 h5 h6 h7 h8 h9 h10
    simp [send_http_request, h1, h2, h3, h4, h5, h6, h7, h8, h9, h10]
  · intro req m b hdrs an e h1 h2 h3 h4 h5 h6 h7 h8 h9 h10 h11 h12
    simp [send_http_request, h1, h2, h3, h4, h5, h6, h7, h8, h9, h10, h11, h12]

/-- Witness for C2 (amended): a render failure comes back as `Ok` with the
error-marked `Closed` record. -/
theorem C2_amended_failure_routing_witness :
    send_http_request envRenderFail initialResponse =
      .ok (response_err initialResponse "render broke") :=
  (C2_amended_failure_routing envRenderFail initialResponse).2.2.1
    "render broke" rfl rfl rfl

/-- C7 fails as stated: a cookie whose round trip fails hits the
`.expect("Failed to deserialize cookie")` panic before
`CookieStore::from_cookies` ever runs, so the build panics instead of
returning a hard `Error` to the caller. -/
theorem C7_counterexample : ¬ C7AsStated := by
  intro h
  obtain ⟨e, he⟩ := h (fun _ => none) [corruptCookie]
    ⟨corruptCookie, List.mem_singleton.mpr rfl, rfl⟩
  exact absurd he (by simp [buildCookieStore, seedCookieStore])

/-- Collecting already-`Ok` cookies never fails. -/
theorem from_cookies_ok {σ : Type} (l : List σ) :
    from_cookies (l.map Except.ok) = .ok l := by
  induction l with
  | nil => rfl
  | cons c rest ih => simp [from_cookies, ih, Except.map]

/-- The conversion loop succeeds exactly when every cookie round-trips, and
then yields the converted cookies in order. -/
theorem seedCookieStore_eq {σ : Type} (roundTrip : Cookie → Option σ)
    (cookies : List Cookie) :
    seedCookieStore roundTrip cookies =
      if cookies.all (fun c => (roundTrip c).isSome) then
        some (cookies.filterMap roundTrip)
      else none := by
  induction cookies with
  | nil => rfl
  | cons c rest ih =>
    cases hc : roundTrip c with
    | none => simp [seedCookieStore, hc, List.all_cons]
    | some sc =>
      by_cases hA : rest.all (fun c => (roundTrip c).isSome) = true
      · simp [seedCookieStore, hc, List.all_cons, ih, hA,
          List.filterMap_cons]
      · simp [seedCookieStore, hc, List.all_cons, ih, hA]

/-- C7 (amended): seeding the in-memory cookie store from a supplied jar
converts every stored cookie through the session's canonical representation;
when every cookie round-trips the store holds exactly the converted cookies
(so none is silently dropped), and a failed round-trip panics at the
`.expect` — the build neither drops the cookie nor returns a hard `Error`
(the `from_cookies(..)?` error path is unreachable because every item is
already wrapped in `Ok`). -/
theorem C7_amended_cookie_seeding {σ : Type} (roundTrip : Cookie → Option σ)
    (cookies : List Cookie) :
    buildCookieStore roundTrip cookies =
      if cookies.all (fun c => (roundTrip c).isSome) then
        some (.ok (cookies.filterMap roundTrip))
      else none := by
  by_cases hA : cookies.all (fun c => (roundTrip c).isSome) = true
  · simp [buildCookieStore, seedCookieStore_eq, hA, from_cookies_ok]
  · simp [buildCookieStore, seedCookieStore_eq, hA]

/-- A cast that fits in 31 bits is the identity. -/
theorem toI32_of_lt {n : Nat} (h : n < 2 ^ 31) : toI32 n = (n : Int) := by
  have h32 : n < 2 ^ 32 := lt_trans h (by norm_num)
  rw [toI32, Nat.mod_eq_of_lt h32, if_pos h]

/-- A finished streaming loop wrote its accumulator plus the size of every
chunk it consumed (cut at a stream error). -/
theorem streamLoop_finished_written (evs : List ChunkResult) :
    ∀ (cs : List Bool) (acc written : Nat) (e : Option String),
      streamLoop evs cs acc = .finished written e →
      written = acc + bytesUntilStop evs := by
  induction evs with
  | nil =>
    intro cs acc w e h
    rw [streamLoop] at h
    by_cases hc : cs.headD false = true
    · rw [if_pos hc] at h
      simp at h
    · rw [if_neg hc] at h
      injection h with h1 h2
      subst h1
      simp [bytesUntilStop]
  | cons ev rest ih =>
    intro cs acc w e h
    cases ev with
    | chunk b =>
      rw [streamLoop] at h
      by_cases hc : cs.headD false = true
      · rw [if_pos hc] at h
        simp at h
      · rw [if_neg hc] at h
        have h2 := ih cs.tail (acc + b.length) w e h
        rw [h2]
        simp [bytesUntilStop]
        omega
    | errC m =>
      rw [streamLoop] at h
      by_cases hc : cs.headD false = true
      · rw [if_pos hc] at h
        simp at h
      · rw [if_neg hc] at h
        injection h with h1 h2
        subst h1
        simp [bytesUntilStop]

/-- C9: for every send whose body streaming runs to its end (normally or cut
by a chunk-read error), the task finalizes a `Closed` record whose
`content_length` is the transport-declared length when one was declared
(assuming it fits in `i32`, the record's field width) and otherwise the number
of bytes actually written to the body file, which equals the total size of the
consumed chunks. -/
theorem C9_final_content_length (v : NetResp) (resp : HttpResponse)
    (bp : String) (reqh : List (String × String)) (cs : List Bool)
    (written : Nat) (errOpt : Option String)
    (hrun : streamLoop v.chunks cs 0 = .finished written errOpt)
    (hdecl : ∀ l, v.contentLength = some l → l < 2 ^ 31)
    (hw : written < 2 ^ 31) :
    (∃ r, runConnectedPhase v resp bp reqh cs = .done r ∧
      r.state = .closed ∧
      r.content_length = some (match v.contentLength with
                               | some l => (l : Int)
                               | none => (written : Int))) ∧
    written = bytesUntilStop v.chunks := by
  constructor
  · refine ⟨_, by rw [runConnectedPhase, hrun], rfl, ?_⟩
    cases hcl : v.contentLength with
    | none => simp [toI32_of_lt hw]
    | some l => simp [toI32_of_lt (hdecl l hcl)]
  · have h2 := streamLoop_finished_written v.chunks cs 0 written errOpt hrun
    simpa using h2

/-- Witness for C9: two chunks of two and one bytes, no declared length — the
final record is `Closed` with `content_length` 3. -/
theorem C9_final_content_length_witness :
    (∃ r, runConnectedPhase sampleNet initialResponse "responses/rs_1" [] [] =
        .done r ∧
      r.state = .closed ∧
      r.content_length = some (match sampleNet.contentLength with
                               | some l => (l : Int)
                               | none => ((3 : Nat) : Int))) ∧
    (3 : Nat) = bytesUntilStop sampleNet.chunks :=
  C9_final_content_length sampleNet initialResponse "responses/rs_1" [] []
    3 none rfl (by intro l h; simp [sampleNet] at h) (by decide)

end Yaak
